import Mathlib

/-!
Verification of the SipSmart turbine flow sensor firmware core.

The embedding follows the two source files:
* `flow_control.ino` — the interval sampler and flow calculator in `loop()`,
  plus the wireless CSV payload built with
  `snprintf(payload, ..., "%lu,%.2f,%.3f,%.2f,%.4f", pulses, frequency,
  flowRate, volumeThisInterval_mL, totalVolume)`.
* the unnamed driver file — the accessor operations `getFlowRate`,
  `getTotalVolume`, `resetTotalVolume` and `setCalibrationFactor`.

C `float` arithmetic is modelled with exact rational arithmetic (`ℚ`);
C `unsigned long` (32-bit on the target) is modelled as `ℕ` with explicit
reduction modulo `2 ^ 32` where wraparound matters.  Serial prints are pure
output and are not part of the state.
-/

namespace SipSmart

/-- `const float ML_PER_PULSE = 2.25;` -/
def ML_PER_PULSE : ℚ := 2.25

/-- `const unsigned long CALC_INTERVAL = 100;` (flow_control.ino). -/
def CALC_INTERVAL : ℕ := 100

/-- The process-wide mutable state of the firmware core:
`pulseCount`, `lastTime`, `flowRate`, `totalVolume`, `calibrationFactor`. -/
structure FlowState where
  pulseCount : ℕ
  lastTime : ℕ
  flowRate : ℚ
  totalVolume : ℚ
  calibrationFactor : ℚ
  deriving DecidableEq, Repr

/-- Initial values of the globals: `pulseCount = 0`, `flowRate = 0.0`,
`totalVolume = 0.0`, `calibrationFactor = 5.0`; `lastTime = millis()` at the
end of `setup()`, passed in as `t0`. -/
def initState (t0 : ℕ) : FlowState :=
  { pulseCount := 0
    lastTime := t0
    flowRate := 0
    totalVolume := 0
    calibrationFactor := 5 }

/-- The ISR `pulseCounter()`: `pulseCount++;` on a 32-bit unsigned counter. -/
def pulseCounter (s : FlowState) : FlowState :=
  { s with pulseCount := (s.pulseCount + 1) % 2 ^ 32 }

/-- `float getFlowRate() { return flowRate; }` -/
def getFlowRate (s : FlowState) : ℚ :=
  s.flowRate

/-- `float getTotalVolume() { return totalVolume; }` -/
def getTotalVolume (s : FlowState) : ℚ :=
  s.totalVolume

/-- `void resetTotalVolume() { totalVolume = 0.0; ... }` — the Serial print is
output only.  The operation is a total function: it cannot fail. -/
def resetTotalVolume (s : FlowState) : FlowState :=
  { s with totalVolume := 0 }

/-- `void setCalibrationFactor(float factor) { calibrationFactor = factor; ... }`
— the source stores `factor` unconditionally; there is no validation of the
argument anywhere in the function.  The Serial print is output only. -/
def setCalibrationFactor (s : FlowState) (factor : ℚ) : FlowState :=
  { s with calibrationFactor := factor }

/-- The values computed by one pass of the calculation block in `loop()`:
the locals `frequency`, `volumeThisInterval_L`, `volumeThisInterval_mL`
and the updated globals `flowRate` and `totalVolume`. -/
structure ComputeResult where
  frequency : ℚ
  flowRate : ℚ
  volumeThisInterval_L : ℚ
  volumeThisInterval_mL : ℚ
  totalVolume : ℚ
  deriving DecidableEq, Repr

/-- The flow calculator: lines 141-151 of `flow_control.ino`.
```
float frequency = (elapsedSeconds > 0) ? (pulses / elapsedSeconds) : 0.0f;
flowRate = frequency / calibrationFactor;
float volumeThisInterval_L = (pulses * ML_PER_PULSE) / 1000.0f;
float volumeThisInterval_mL = volumeThisInterval_L * 1000.0f;
totalVolume += volumeThisInterval_L;
```
`pulses` is the drained (non-negative) counter value; `totalVolume` is the
running total before this interval. -/
def computeStep (pulses : ℕ) (elapsedSeconds calibrationFactor totalVolume : ℚ) :
    ComputeResult :=
  let frequency : ℚ := if 0 < elapsedSeconds then (pulses : ℚ) / elapsedSeconds else 0
  let flowRate : ℚ := frequency / calibrationFactor
  let volumeThisInterval_L : ℚ := ((pulses : ℚ) * ML_PER_PULSE) / 1000
  let volumeThisInterval_mL : ℚ := volumeThisInterval_L * 1000
  { frequency := frequency
    flowRate := flowRate
    volumeThisInterval_L := volumeThisInterval_L
    volumeThisInterval_mL := volumeThisInterval_mL
    totalVolume := totalVolume + volumeThisInterval_L }

/-- `currentTime - lastTime` in C `unsigned long` (32-bit) arithmetic. -/
def deltaMs (lastTime currentTime : ℕ) : ℕ :=
  (currentTime + 2 ^ 32 - lastTime) % 2 ^ 32

/-- `float elapsedSeconds = (currentTime - lastTime) / 1000.0f;` -/
def elapsedSecondsOf (s : FlowState) (currentTime : ℕ) : ℚ :=
  (deltaMs s.lastTime currentTime : ℚ) / 1000

/-- The per-interval sample handed to the reporting sinks: the five values
passed to `snprintf` in order. -/
structure FlowSample where
  pulses : ℕ
  frequency : ℚ
  flowRate : ℚ
  volumeThisInterval_mL : ℚ
  totalVolume : ℚ
  deriving DecidableEq, Repr

/-- One pass of `loop()` at wall-clock time `currentTime`: when
`currentTime - lastTime >= CALC_INTERVAL` the counter is drained
(`pulses = pulseCount; pulseCount = 0;`), the flow calculator runs, and
`lastTime = currentTime`; otherwise nothing happens.  Returns the new state
and the `FlowSample` produced (if any). -/
def loopStep (s : FlowState) (currentTime : ℕ) : FlowState × Option FlowSample :=
  if CALC_INTERVAL ≤ deltaMs s.lastTime currentTime then
    let pulses := s.pulseCount
    let r := computeStep pulses (elapsedSecondsOf s currentTime)
      s.calibrationFactor s.totalVolume
    ({ s with
        pulseCount := 0
        lastTime := currentTime
        flowRate := r.flowRate
        totalVolume := r.totalVolume },
      some
        { pulses := pulses
          frequency := r.frequency
          flowRate := r.flowRate
          volumeThisInterval_mL := r.volumeThisInterval_mL
          totalVolume := r.totalVolume })
  else (s, none)

end SipSmart

namespace SipSmart

/-- Decimal digits of `n`, most significant first, built onto `acc`
(the digit extraction a C integer conversion performs for `%lu`); `fuel`
bounds the recursion depth and never runs out when `fuel > n`, since
`n / 10 < n` for `n ≥ 10`. -/
def natDigsAux (fuel n : ℕ) (acc : List Char) : List Char :=
  match fuel with
  | 0 => acc
  | fuel + 1 =>
    if n < 10 then Nat.digitChar n :: acc
    else natDigsAux fuel (n / 10) (Nat.digitChar (n % 10) :: acc)

/-- The decimal representation of `n` as characters (`%lu` for `n < 2^32`). -/
def natDigs (n : ℕ) : List Char :=
  natDigsAux (n + 1) n []

/-- `c` is one of the ten decimal digit characters. -/
def IsDigitCh (c : Char) : Prop :=
  ∃ d, d < 10 ∧ c = Nat.digitChar d

/-- Floor of a rational, written out so the kernel can evaluate it;
`floorQ_eq` identifies it with the mathematical floor. -/
def floorQ (q : ℚ) : ℤ :=
  q.num / (q.den : ℤ)

/-- Round-half-up of a rational; `roundQ_eq` identifies it with the
mathematical `round`. -/
def roundQ (q : ℚ) : ℤ :=
  floorQ (q + 1 / 2)

theorem floorQ_eq (q : ℚ) : floorQ q = ⌊q⌋ :=
  Rat.floor_def.symm

theorem roundQ_eq (q : ℚ) : roundQ q = round q := by
  rw [roundQ, floorQ_eq, round_eq]

/-- Fixed-point rendering of a rational with `p` fractional digits, modelling
the C `snprintf` conversion `%.pf`: scale by `10 ^ p`, round to the nearest
integer (the model rounds halves up; `printf` resolves ties on the binary
double to even), then emit sign, integer digits, and exactly `p` fractional
digits. -/
def fmtFixed (q : ℚ) (p : ℕ) : List Char :=
  let scaled : ℤ := roundQ (q * (10 : ℚ) ^ p)
  let digs := natDigs scaled.natAbs
  let padded := List.replicate (p + 1 - digs.length) '0' ++ digs
  let sign : List Char := if scaled < 0 then ['-'] else []
  if p = 0 then sign ++ padded
  else sign ++ padded.take (padded.length - p) ++ '.' :: padded.drop (padded.length - p)

/-- The BLE notification payload, lines 174-185 of `flow_control.ino`:
```
snprintf(payload, sizeof(payload), "%lu,%.2f,%.3f,%.2f,%.4f",
         pulses, frequency, flowRate, volumeThisInterval_mL, totalVolume);
```
-/
def payloadChars (s : FlowSample) : List Char :=
  natDigs s.pulses ++
    ',' :: (fmtFixed s.frequency 2 ++
      ',' :: (fmtFixed s.flowRate 3 ++
        ',' :: (fmtFixed s.volumeThisInterval_mL 2 ++
          ',' :: fmtFixed s.totalVolume 4)))

/-- The payload as a string value. -/
def payload (s : FlowSample) : String :=
  String.mk (payloadChars s)

/-- `l` renders a number with exactly `p` digits after a unique decimal
point. -/
def HasDecimals (l : List Char) (p : ℕ) : Prop :=
  ∃ intPart frac, l = intPart ++ '.' :: frac ∧ frac.length = p ∧
    '.' ∉ intPart ∧ '.' ∉ frac

theorem digitChar_facts (d : ℕ) (hd : d < 10) :
    Nat.digitChar d ≠ ',' ∧ Nat.digitChar d ≠ '.' ∧ (Nat.digitChar d).toNat < 128 := by
  interval_cases d <;> exact ⟨by decide, by decide, by decide⟩

theorem natDigsAux_digits (fuel : ℕ) :
    ∀ (n : ℕ) (acc : List Char), (∀ c ∈ acc, IsDigitCh c) →
      ∀ c ∈ natDigsAux fuel n acc, IsDigitCh c := by
  induction fuel with
  | zero => exact fun n acc hacc c hc => hacc c hc
  | succ fuel ih =>
    intro n acc hacc c hc
    unfold natDigsAux at hc
    split at hc
    · rename_i h
      rcases List.mem_cons.mp hc with h1 | h1
      · exact ⟨n, h, h1⟩
      · exact hacc c h1
    · refine ih (n / 10) _ ?_ c hc
      intro c2 hc2
      rcases List.mem_cons.mp hc2 with h1 | h1
      · exact ⟨n % 10, Nat.mod_lt _ (by omega), h1⟩
      · exact hacc c2 h1

theorem natDigs_digits (n : ℕ) : ∀ c ∈ natDigs n, IsDigitCh c :=
  natDigsAux_digits (n + 1) n [] (by simp)

theorem mem_fmtFixed (q : ℚ) (p : ℕ) :
    ∀ c ∈ fmtFixed q p, c = '-' ∨ c = '.' ∨ c = '0' ∨ IsDigitCh c := by
  intro c hc
  unfold fmtFixed at hc
  have hpad : ∀ c2 ∈ List.replicate
      (p + 1 - (natDigs (roundQ (q * (10 : ℚ) ^ p)).natAbs).length) '0' ++
      natDigs (roundQ (q * (10 : ℚ) ^ p)).natAbs,
      c2 = '0' ∨ IsDigitCh c2 := by
    intro c2 hc2
    rcases List.mem_append.mp hc2 with h1 | h1
    · exact Or.inl (List.eq_of_mem_replicate h1)
    · exact Or.inr (natDigs_digits _ c2 h1)
  have hsign : ∀ c2 ∈ (if roundQ (q * (10 : ℚ) ^ p) < 0 then ['-'] else ([] : List Char)),
      c2 = '-' := by
    intro c2 hc2
    split at hc2
    · simpa using hc2
    · simp at hc2
  split at hc
  · rcases List.mem_append.mp hc with h1 | h1
    · exact Or.inl (hsign c h1)
    · rcases hpad c h1 with h2 | h2
      · exact Or.inr (Or.inr (Or.inl h2))
      · exact Or.inr (Or.inr (Or.inr h2))
  · rcases List.mem_append.mp hc with h1 | h1
    · rcases List.mem_append.mp h1 with h2 | h2
      · exact Or.inl (hsign c h2)
      · rcases hpad c (List.take_subset _ _ h2) with h3 | h3
        · exact Or.inr (Or.inr (Or.inl h3))
        · exact Or.inr (Or.inr (Or.inr h3))
    · rcases List.mem_cons.mp h1 with h2 | h2
      · exact Or.inr (Or.inl h2)
      · rcases hpad c (List.drop_subset _ _ h2) with h3 | h3
        · exact Or.inr (Or.inr (Or.inl h3))
        · exact Or.inr (Or.inr (Or.inr h3))

theorem comma_not_mem_fmtFixed (q : ℚ) (p : ℕ) : ',' ∉ fmtFixed q p := by
  intro hc
  rcases mem_fmtFixed q p ',' hc with h | h | h | h
  · exact absurd h (by decide)
  · exact absurd h (by decide)
  · exact absurd h (by decide)
  · obtain ⟨d, hd, hdc⟩ := h
    exact (digitChar_facts d hd).1 hdc.symm

theorem comma_not_mem_natDigs (n : ℕ) : ',' ∉ natDigs n := by
  intro hc
  obtain ⟨d, hd, hdc⟩ := natDigs_digits n ',' hc
  exact (digitChar_facts d hd).1 hdc.symm

theorem fmtFixed_hasDecimals (q : ℚ) (p : ℕ) (hp : p ≠ 0) :
    HasDecimals (fmtFixed q p) p := by
  unfold fmtFixed
  rw [if_neg hp]
  set scaled : ℤ := roundQ (q * (10 : ℚ) ^ p) with hscaled
  set digs := natDigs scaled.natAbs with hdigs
  set padded := List.replicate (p + 1 - digs.length) '0' ++ digs with hpadded
  set sign : List Char := if scaled < 0 then ['-'] else [] with hsign
  have hlen : p + 1 ≤ padded.length := by
    rw [hpadded]
    simp only [List.length_append, List.length_replicate]
    omega
  have hpadmem : ∀ c ∈ padded, c ≠ '.' := by
    intro c hc
    rw [hpadded] at hc
    rcases List.mem_append.mp hc with h1 | h1
    · rw [List.eq_of_mem_replicate h1]
      decide
    · obtain ⟨d, hd, hdc⟩ := natDigs_digits _ c h1
      rw [hdc]
      exact (digitChar_facts d hd).2.1
  refine ⟨sign ++ padded.take (padded.length - p), padded.drop (padded.length - p),
    by rw [List.append_assoc], ?_, ?_, ?_⟩
  · rw [List.length_drop]
    omega
  · intro hc
    rcases List.mem_append.mp hc with h1 | h1
    · rw [hsign] at h1
      split at h1
      · simp at h1
      · simp at h1
    · exact hpadmem _ (List.take_subset _ _ h1) rfl
  · intro hc
    exact hpadmem _ (List.drop_subset _ _ hc) rfl

theorem fmtFixed_ascii (q : ℚ) (p : ℕ) : ∀ c ∈ fmtFixed q p, c.toNat < 128 := by
  intro c hc
  rcases mem_fmtFixed q p c hc with h | h | h | h
  · rw [h]; decide
  · rw [h]; decide
  · rw [h]; decide
  · obtain ⟨d, hd, hdc⟩ := h
    rw [hdc]
    exact (digitChar_facts d hd).2.2

theorem natDigs_ascii (n : ℕ) : ∀ c ∈ natDigs n, c.toNat < 128 := by
  intro c hc
  obtain ⟨d, hd, hdc⟩ := natDigs_digits n c hc
  rw [hdc]
  exact (digitChar_facts d hd).2.2

example : natDigs 50 = ['5', '0'] := by decide
example : natDigs 0 = ['0'] := by decide
example : natDigs 4294967295 = ['4', '2', '9', '4', '9', '6', '7', '2', '9', '5'] := by decide

/-- C1 counterexample: calling `setCalibrationFactor` with the non-positive
factor `-1` on the initial state (stored factor `5`) does not fail and does
not leave the previous factor in effect: the stored factor becomes `-1`. -/
theorem setCalibrationFactor_no_rejection_counterexample :
    (setCalibrationFactor (initState 0) (-1)).calibrationFactor = -1 ∧
    (initState 0).calibrationFactor = 5 ∧
    (setCalibrationFactor (initState 0) (-1)).calibrationFactor ≠
      (initState 0).calibrationFactor := by
  refine ⟨rfl, rfl, ?_⟩
  norm_num [setCalibrationFactor, initState]

/-- C1 (amended): for every factor, including zero and negative values,
`setCalibrationFactor(factor)` succeeds, replaces the stored calibration
factor with `factor`, and changes no other state. -/
theorem setCalibrationFactor_unconditional (s : FlowState) (factor : ℚ) :
    (setCalibrationFactor s factor).calibrationFactor = factor ∧
    (setCalibrationFactor s factor).pulseCount = s.pulseCount ∧
    (setCalibrationFactor s factor).lastTime = s.lastTime ∧
    (setCalibrationFactor s factor).flowRate = s.flowRate ∧
    (setCalibrationFactor s factor).totalVolume = s.totalVolume :=
  ⟨rfl, rfl, rfl, rfl, rfl⟩

/-- C2: the computed frequency equals `pulses / elapsedSeconds` when
`elapsedSeconds > 0` and is exactly `0` when `elapsedSeconds = 0`; moreover,
whenever `loop()` actually produces a sample, the elapsed-seconds divisor is
strictly positive (the guard `currentTime - lastTime >= CALC_INTERVAL` makes
it at least `CALC_INTERVAL / 1000`), so the division never runs with a zero
divisor. -/
theorem frequency_guard_spec (p : ℕ) (e cal total : ℚ) (s : FlowState) (t : ℕ) :
    (0 < e → (computeStep p e cal total).frequency = (p : ℚ) / e) ∧
    (e = 0 → (computeStep p e cal total).frequency = 0) ∧
    ((loopStep s t).2.isSome → 0 < elapsedSecondsOf s t) := by
  refine ⟨fun he => ?_, fun he => ?_, fun h => ?_⟩
  · simp [computeStep, if_pos he]
  · subst he
    simp [computeStep]
  · by_cases hd : CALC_INTERVAL ≤ deltaMs s.lastTime t
    · have hpos : 0 < deltaMs s.lastTime t :=
        lt_of_lt_of_le (by norm_num [CALC_INTERVAL]) hd
      have hq : (0 : ℚ) < (deltaMs s.lastTime t : ℚ) := by exact_mod_cast hpos
      unfold elapsedSecondsOf
      positivity
    · simp [loopStep, hd] at h

/-- C2 witness: concrete instances of the three clauses. -/
theorem frequency_guard_spec_witness :
    (computeStep 50 1 5 0).frequency = 50 ∧
    (computeStep 50 0 5 0).frequency = 0 ∧
    0 < elapsedSecondsOf (initState 0) 100 := by
  refine ⟨?_, ?_, ?_⟩
  · have h := (frequency_guard_spec 50 1 5 0 (initState 0) 100).1 (by norm_num)
    simpa using h
  · exact (frequency_guard_spec 50 0 5 0 (initState 0) 100).2.1 rfl
  · exact (frequency_guard_spec 50 0 5 0 (initState 0) 100).2.2 (by decide)

/-- C3: end-to-end scenario A — 50 pulses, 1.0 s elapsed, calibration factor
5.0, 2.25 mL per pulse: frequency 50 Hz, flow rate 10, interval volume
112.5 mL, and the running total grows by exactly 0.1125 L, from any prior
total. -/
theorem scenario_a (total : ℚ) :
    (computeStep 50 1 5 total).frequency = 50 ∧
    (computeStep 50 1 5 total).flowRate = 10 ∧
    (computeStep 50 1 5 total).volumeThisInterval_mL = 112.5 ∧
    (computeStep 50 1 5 total).totalVolume = total + 0.1125 := by
  norm_num [computeStep, ML_PER_PULSE]

/-- C4: for every sample and every strictly positive calibration factor, the
computed flow rate is exactly the frequency divided by the calibration
factor. -/
theorem flowRate_eq_frequency_div_calibration (p : ℕ) (e cal total : ℚ)
    (h : 0 < cal) :
    (computeStep p e cal total).flowRate =
      (computeStep p e cal total).frequency / cal := by
  simp [computeStep]

/-- C4 witness at calibration factor 5. -/
theorem flowRate_eq_frequency_div_calibration_witness :
    (0 : ℚ) < 5 ∧
    (computeStep 50 1 5 0).flowRate = (computeStep 50 1 5 0).frequency / 5 :=
  ⟨by norm_num, flowRate_eq_frequency_div_calibration 50 1 5 0 (by norm_num)⟩

/-- C5: an interval with zero drained pulses and positive elapsed time yields
frequency 0, flow rate 0, interval volume 0 mL, and leaves the running total
unchanged. -/
theorem zero_pulses_interval (e cal total : ℚ) (he : 0 < e) :
    (computeStep 0 e cal total).frequency = 0 ∧
    (computeStep 0 e cal total).flowRate = 0 ∧
    (computeStep 0 e cal total).volumeThisInterval_mL = 0 ∧
    (computeStep 0 e cal total).totalVolume = total := by
  norm_num [computeStep, if_pos he]

/-- C5 witness: one second elapsed, calibration 5, prior total 7. -/
theorem zero_pulses_interval_witness :
    (0 : ℚ) < 1 ∧
    ((computeStep 0 1 5 7).frequency = 0 ∧
     (computeStep 0 1 5 7).flowRate = 0 ∧
     (computeStep 0 1 5 7).volumeThisInterval_mL = 0 ∧
     (computeStep 0 1 5 7).totalVolume = 7) :=
  ⟨by norm_num, zero_pulses_interval 1 5 7 (by norm_num)⟩

/-- C6: `resetTotalVolume()` sets the running total to exactly 0 from any
prior state, touches nothing else, and (being a total function) has no
failure mode. -/
theorem resetTotalVolume_spec (s : FlowState) :
    (resetTotalVolume s).totalVolume = 0 ∧
    (resetTotalVolume s).pulseCount = s.pulseCount ∧
    (resetTotalVolume s).lastTime = s.lastTime ∧
    (resetTotalVolume s).flowRate = s.flowRate ∧
    (resetTotalVolume s).calibrationFactor = s.calibrationFactor :=
  ⟨rfl, rfl, rfl, rfl, rfl⟩

/-- C7: the running total never decreases under any core operation except the
explicit reset: a loop pass can only grow it, the pulse ISR and the
calibration setter leave it unchanged, and `resetTotalVolume` is the sole
operation that lowers it, to exactly 0. -/
theorem totalVolume_monotone (s : FlowState) (t : ℕ) (f : ℚ) :
    s.totalVolume ≤ (loopStep s t).1.totalVolume ∧
    (pulseCounter s).totalVolume = s.totalVolume ∧
    (setCalibrationFactor s f).totalVolume = s.totalVolume ∧
    (resetTotalVolume s).totalVolume = 0 := by
  refine ⟨?_, rfl, rfl, rfl⟩
  unfold loopStep
  split
  · have hvol : (0 : ℚ) ≤ (s.pulseCount : ℚ) * ML_PER_PULSE / 1000 := by
      unfold ML_PER_PULSE
      positivity
    simp only [computeStep]
    linarith
  · exact le_refl _

/-- C9: the interval volume and the change to the running total are
independent of the calibration factor, and so is the frequency; only the
flow rate depends on it. -/
theorem volume_independent_of_calibration (p : ℕ) (e cal1 cal2 total : ℚ) :
    (computeStep p e cal1 total).volumeThisInterval_L =
      (computeStep p e cal2 total).volumeThisInterval_L ∧
    (computeStep p e cal1 total).volumeThisInterval_mL =
      (computeStep p e cal2 total).volumeThisInterval_mL ∧
    (computeStep p e cal1 total).totalVolume =
      (computeStep p e cal2 total).totalVolume ∧
    (computeStep p e cal1 total).frequency =
      (computeStep p e cal2 total).frequency := by
  refine ⟨rfl, rfl, rfl, rfl⟩

/-- C10: with zero elapsed time but a positive drained pulse count, the
computation reports frequency 0 and flow rate 0, yet the interval volume is
the strictly positive `pulses * ML_PER_PULSE / 1000` litres and the running
total grows by exactly that amount. -/
theorem zero_elapsed_positive_pulses (p : ℕ) (cal total : ℚ) (hp : 0 < p) :
    (computeStep p 0 cal total).frequency = 0 ∧
    (computeStep p 0 cal total).flowRate = 0 ∧
    (computeStep p 0 cal total).volumeThisInterval_L =
      (p : ℚ) * ML_PER_PULSE / 1000 ∧
    0 < (computeStep p 0 cal total).volumeThisInterval_L ∧
    (computeStep p 0 cal total).totalVolume =
      total + (p : ℚ) * ML_PER_PULSE / 1000 := by
  have hpq : (0 : ℚ) < (p : ℚ) := by exact_mod_cast hp
  refine ⟨?_, ?_, rfl, ?_, rfl⟩
  · simp [computeStep]
  · simp [computeStep]
  · unfold computeStep ML_PER_PULSE
    positivity

/-- C10 witness at 1 pulse, calibration 5, prior total 0. -/
theorem zero_elapsed_positive_pulses_witness :
    0 < 1 ∧
    ((computeStep 1 0 5 0).frequency = 0 ∧
     (computeStep 1 0 5 0).flowRate = 0 ∧
     (computeStep 1 0 5 0).volumeThisInterval_L = (1 : ℚ) * ML_PER_PULSE / 1000 ∧
     0 < (computeStep 1 0 5 0).volumeThisInterval_L ∧
     (computeStep 1 0 5 0).totalVolume = 0 + (1 : ℚ) * ML_PER_PULSE / 1000) :=
  ⟨by norm_num, zero_elapsed_positive_pulses 1 5 0 (by norm_num)⟩

/-- C8: splitting the payload on commas yields exactly five fields, in the
fixed order pulses, frequency, flow rate, interval volume (mL), total volume;
the pulses field is a run of decimal digits, the four numeric fields carry
exactly 2, 3, 2 and 4 fractional digits, and every payload character is
ASCII. -/
theorem payload_format (s : FlowSample) :
    (payloadChars s).splitOn ',' =
      [natDigs s.pulses, fmtFixed s.frequency 2, fmtFixed s.flowRate 3,
       fmtFixed s.volumeThisInterval_mL 2, fmtFixed s.totalVolume 4] ∧
    (∀ c ∈ natDigs s.pulses, IsDigitCh c) ∧
    HasDecimals (fmtFixed s.frequency 2) 2 ∧
    HasDecimals (fmtFixed s.flowRate 3) 3 ∧
    HasDecimals (fmtFixed s.volumeThisInterval_mL 2) 2 ∧
    HasDecimals (fmtFixed s.totalVolume 4) 4 ∧
    (∀ c ∈ payloadChars s, c.toNat < 128) := by
  have hinter : payloadChars s =
      [','].intercalate
        [natDigs s.pulses, fmtFixed s.frequency 2, fmtFixed s.flowRate 3,
         fmtFixed s.volumeThisInterval_mL 2, fmtFixed s.totalVolume 4] := by
    simp [payloadChars, List.intercalate, List.intersperse]
  refine ⟨?_, natDigs_digits _, fmtFixed_hasDecimals _ _ (by norm_num),
    fmtFixed_hasDecimals _ _ (by norm_num), fmtFixed_hasDecimals _ _ (by norm_num),
    fmtFixed_hasDecimals _ _ (by norm_num), ?_⟩
  · rw [hinter]
    refine List.splitOn_intercalate _ ',' ?_ (by simp)
    intro l hl
    simp only [List.mem_cons, List.not_mem_nil, or_false] at hl
    rcases hl with rfl | rfl | rfl | rfl | rfl
    · exact comma_not_mem_natDigs _
    · exact comma_not_mem_fmtFixed _ _
    · exact comma_not_mem_fmtFixed _ _
    · exact comma_not_mem_fmtFixed _ _
    · exact comma_not_mem_fmtFixed _ _
  · intro c hc
    unfold payloadChars at hc
    simp only [List.mem_append, List.mem_cons] at hc
    rcases hc with h | h | h | h | h | h | h | h | h
    · exact natDigs_ascii _ c h
    · rw [h]; decide
    · exact fmtFixed_ascii _ _ c h
    · rw [h]; decide
    · exact fmtFixed_ascii _ _ c h
    · rw [h]; decide
    · exact fmtFixed_ascii _ _ c h
    · rw [h]; decide
    · exact fmtFixed_ascii _ _ c h

end SipSmart
